import Mathlib

/-!
Verification of the "Nifty 100 Weekly 52-Week High Detector"
(src/nifty_52w_high_detector.py) against its natural-language specification.

Shallow embedding conventions:
* Calendar dates are `Int` day numbers, with the epoch chosen so that day 0 is
  a Monday; `d % 7` is then exactly Python's `date.weekday()`
  (0 = Monday … 6 = Sunday), and `timedelta` arithmetic is `Int` addition.
* Prices are `ℚ` (the Python code computes with floats; the arithmetic the
  claims are about — comparisons, max, the tolerance band — is exact here).
* A pandas DataFrame of daily bars is a `List Bar`, kept in the row order the
  data source returns (ascending by date); boolean-mask filtering is
  `List.filter`, `Series.max` is `maxHigh`, and `Series.idxmax` (index label
  of the first occurrence of the maximum) is `idxmaxHighDate`.
* `yfinance` fetches are an explicit data-source function passed in, returning
  `Except String (List Bar)`: `.error` models a raised exception, `.ok []`
  models "no data for ticker".
* Python's `round(x, 2)` is modelled by `round2` (display-level rounding of
  stored record fields; it rounds half away from zero where Python's float
  round is half-even, a divergence only at exact midpoints, which the claims
  never touch).
-/

/-- One daily OHLCV bar (one row of the DataFrame returned by
`stock.history`). -/
structure Bar where
  date : Int
  open_ : ℚ
  high : ℚ
  low : ℚ
  close : ℚ
  volume : Int
deriving DecidableEq

/-- Python's `round(x, 2)`: round to two decimal places. -/
def round2 (x : ℚ) : ℚ := ((round (x * 100) : ℤ) : ℚ) / 100

/-- `historical_data['High'].max()` — the maximum of the `High` column.
pandas returns NaN on an empty frame; the code only evaluates it behind a
`len ≥ 200` guard, so the `0` default for `[]` is unreachable there. -/
def maxHigh : List Bar → ℚ
  | [] => 0
  | [b] => b.high
  | b :: bs => max b.high (maxHigh bs)

/-- `historical_data['High'].idxmax().date()` — the date (index label) of the
first row, in stored order, attaining the maximum of the `High` column. -/
def idxmaxHighDate (bars : List Bar) : Option Int :=
  let m := maxHigh bars
  (bars.find? (fun b => decide (b.high = m))).map (fun b => b.date)

/-- Lines 96–103 of `is_52_week_high`: restrict `ticker_data` to bars with
`check_date - 365 ≤ date ≤ check_date` (the trailing 52-week window, both ends
inclusive — it contains the checked date itself). -/
def baselineBars (tickerData : List Bar) (checkDate : Int) : List Bar :=
  tickerData.filter (fun b =>
    decide (checkDate - 365 ≤ b.date) && decide (b.date ≤ checkDate))

/-- `is_52_week_high(ticker_data, current_high, check_date, tolerance)`,
returning the Python triple `(is_high, week_52_high, week_52_high_date)`;
`(False, None, None)` when the window holds fewer than 200 bars.  The
function body is pure, so the `try/except` wrapper can never fire and is not
modelled. -/
def is52WeekHigh (tickerData : List Bar) (currentHigh : ℚ) (checkDate : Int)
    (tolerance : ℚ) : Bool × Option ℚ × Option Int :=
  let historicalData := baselineBars tickerData checkDate
  if historicalData.length < 200 then (false, none, none)
  else
    let week52High := maxHigh historicalData
    let week52HighDate := idxmaxHighDate historicalData
    let isHigh := decide (currentHigh ≥ week52High * (1 - tolerance))
    (isHigh, some week52High, week52HighDate)

/-- The default `tolerance=0.001` of `is_52_week_high`, used by the scan's
call site (which passes no tolerance argument). -/
def tolDefault : ℚ := 1 / 1000

/-- `get_week_dates(weeks_back)` with the impure `datetime.now().date()`
made an explicit `today` argument: Monday and Friday of the target week. -/
def getWeekDates (today : Int) (weeksBack : Nat) : Int × Int :=
  let daysSinceMonday := today % 7
  let thisMonday := today - daysSinceMonday
  let targetMonday := thisMonday - 7 * (weeksBack : Int)
  let targetFriday := targetMonday + 4
  (targetMonday, targetFriday)

section BasicLemmas

/-- Unfolding `maxHigh` over a cons with a nonempty tail. -/
theorem maxHigh_cons (b c : Bar) (cs : List Bar) :
    maxHigh (b :: c :: cs) = max b.high (maxHigh (c :: cs)) := rfl

/-- Every element's high is bounded by `maxHigh`. -/
theorem le_maxHigh_of_mem {b : Bar} : ∀ {l : List Bar}, b ∈ l → b.high ≤ maxHigh l
  | [], h => absurd h (List.not_mem_nil b)
  | [c], h => by
    rcases List.mem_singleton.mp h with rfl
    exact le_of_eq rfl
  | c :: d :: cs, h => by
    rcases List.mem_cons.mp h with rfl | h'
    · rw [maxHigh_cons]; exact le_max_left _ _
    · rw [maxHigh_cons]
      exact le_trans (le_maxHigh_of_mem h') (le_max_right _ _)

/-- On a nonempty list, `maxHigh` is attained by some element. -/
theorem maxHigh_mem : ∀ {l : List Bar}, l ≠ [] → ∃ b ∈ l, b.high = maxHigh l
  | [], h => absurd rfl h
  | [c], _ => ⟨c, List.mem_singleton_self c, rfl⟩
  | c :: d :: cs, _ => by
    obtain ⟨b, hb, hbeq⟩ := maxHigh_mem (show d :: cs ≠ [] by simp)
    by_cases hc : maxHigh (d :: cs) ≤ c.high
    · exact ⟨c, List.mem_cons_self c _, by rw [maxHigh_cons, max_eq_left hc]⟩
    · exact ⟨b, List.mem_cons_of_mem _ hb, by
        rw [maxHigh_cons, max_eq_right (le_of_not_le hc), hbeq]⟩

end BasicLemmas

/-- C1: for every positive trailing high and nonnegative tolerance, the
qualification test of `is_52_week_high` (given a window of at least 200 bars,
whose maximum is the trailing high) reports a qualifying high iff
`candidate ≥ trailing_high * (1 - tolerance)` — a `≥`, not a strict `>`;
the test is monotone in the tolerance, and a value always qualifies against
itself at tolerance 0. -/
theorem c1_tolerance_band (data : List Bar) (candidate : ℚ) (checkDate : Int)
    (tol tol2 : ℚ) (hlen : 200 ≤ (baselineBars data checkDate).length)
    (hpos : 0 < maxHigh (baselineBars data checkDate)) (htol : 0 ≤ tol) :
    ((is52WeekHigh data candidate checkDate tol).1 = true ↔
      candidate ≥ maxHigh (baselineBars data checkDate) * (1 - tol)) ∧
    (tol ≤ tol2 → (is52WeekHigh data candidate checkDate tol).1 = true →
      (is52WeekHigh data candidate checkDate tol2).1 = true) ∧
    (is52WeekHigh data (maxHigh (baselineBars data checkDate)) checkDate 0).1
      = true := by
  have hif : ¬ (baselineBars data checkDate).length < 200 := by omega
  refine ⟨?_, ?_, ?_⟩
  · simp [is52WeekHigh, hif]
  · intro hle h1
    simp only [is52WeekHigh, hif, if_false, decide_eq_true_eq] at h1 ⊢
    refine le_trans ?_ h1
    have : 1 - tol2 ≤ 1 - tol := by linarith
    exact mul_le_mul_of_nonneg_left this (le_of_lt hpos)
  · simp only [is52WeekHigh, hif, if_false, decide_eq_true_eq]
    simp

/-- C7: for every date `today` and every `weeks_back = k ≥ 0`,
`get_week_dates` returns a start date that is a Monday (`today` minus its
weekday offset, minus `7*k` days), an end date equal to `start + 4` days,
and satisfies `start(today, k) = start(today, k+1) + 7` days. -/
theorem c7_week_window (today : Int) (k : Nat) :
    (getWeekDates today k).1 % 7 = 0 ∧
    (getWeekDates today k).2 = (getWeekDates today k).1 + 4 ∧
    (getWeekDates today k).1 = (getWeekDates today (k + 1)).1 + 7 := by
  refine ⟨?_, rfl, ?_⟩
  · simp only [getWeekDates]
    omega
  · simp only [getWeekDates]
    push_cast
    ring

/-- On a list sorted strictly by date, `find?` returns the earliest-dated
element satisfying the predicate. -/
theorem find?_date_minimal {p : Bar → Bool} :
    ∀ {l : List Bar}, l.Pairwise (fun a b => a.date < b.date) →
      ∀ {b : Bar}, l.find? p = some b →
        ∀ b2 ∈ l, p b2 = true → b.date ≤ b2.date
  | [], _, _, hfind => by simp [List.find?] at hfind
  | c :: cs, hs, b, hfind => by
    intro b2 hb2 hp2
    rcases List.pairwise_cons.mp hs with ⟨hhead, htail⟩
    by_cases hc : p c
    · rw [List.find?_cons_of_pos _ hc] at hfind
      cases hfind
      rcases List.mem_cons.mp hb2 with rfl | h'
      · exact le_refl _
      · exact le_of_lt (hhead _ h')
    · rw [List.find?_cons_of_neg _ hc] at hfind
      rcases List.mem_cons.mp hb2 with rfl | h'
      · exact absurd hp2 hc
      · exact find?_date_minimal htail hfind b2 h' hp2

/-- C4: for every check date (on a date-sorted series with at least 200 bars
in the window), the trailing 52-week high returned by `is_52_week_high` is the
maximum of the `High` values over exactly the bars with
`check_date - 365 ≤ date ≤ check_date`, and the reported trailing-high date is
the earliest date among the bars tying at that maximum (first-occurrence
`idxmax` semantics). -/
theorem c4_trailing_window (data : List Bar) (candidate : ℚ) (checkDate : Int)
    (tol : ℚ) (hsorted : data.Pairwise (fun a b => a.date < b.date))
    (hlen : 200 ≤ (baselineBars data checkDate).length) :
    (∀ b ∈ data,
      (checkDate - 365 ≤ b.date ∧ b.date ≤ checkDate) ↔
        b ∈ baselineBars data checkDate) ∧
    (is52WeekHigh data candidate checkDate tol).2.1 =
      some (maxHigh (baselineBars data checkDate)) ∧
    (∀ b ∈ baselineBars data checkDate,
      b.high ≤ maxHigh (baselineBars data checkDate)) ∧
    (∃ b ∈ baselineBars data checkDate,
      b.high = maxHigh (baselineBars data checkDate)) ∧
    ∃ d, (is52WeekHigh data candidate checkDate tol).2.2 = some d ∧
      (∃ b ∈ baselineBars data checkDate,
        b.date = d ∧ b.high = maxHigh (baselineBars data checkDate)) ∧
      ∀ b ∈ baselineBars data checkDate,
        b.high = maxHigh (baselineBars data checkDate) → d ≤ b.date := by
  have hif : ¬ (baselineBars data checkDate).length < 200 := by omega
  have hne : baselineBars data checkDate ≠ [] := by
    intro h0; rw [h0] at hlen; simp at hlen
  have hbsorted : (baselineBars data checkDate).Pairwise
      (fun a b => a.date < b.date) := List.Pairwise.filter _ hsorted
  obtain ⟨bm, hbm, hbmeq⟩ := maxHigh_mem hne
  have hfind : ((baselineBars data checkDate).find?
      (fun b => decide (b.high = maxHigh (baselineBars data checkDate)))).isSome := by
    rw [List.find?_isSome]
    exact ⟨bm, hbm, by simpa using hbmeq⟩
  obtain ⟨bf, hbf⟩ := Option.isSome_iff_exists.mp hfind
  refine ⟨?_, ?_, ?_, ⟨bm, hbm, hbmeq⟩, bf.date, ?_, ⟨bf, ?_, rfl, ?_⟩, ?_⟩
  · intro b hb
    simp [baselineBars, List.mem_filter, hb]
  · simp [is52WeekHigh, hif]
  · intro b hb
    exact le_maxHigh_of_mem hb
  · simp only [is52WeekHigh, hif, if_false, idxmaxHighDate]
    rw [hbf]
    rfl
  · exact List.mem_of_find?_eq_some hbf
  · have := List.find?_some hbf
    simpa using this
  · intro b hb hbq
    exact find?_date_minimal hbsorted hbf b hb (by simpa using hbq)

/-- A detection result: one row appended to `results` in `scan_weekly_highs`
(lines 188–199).  Field names follow the result-dict keys. -/
structure HighEvent where
  stock : String
  date : Int
  high : ℚ
  close : ℚ
  volume : Int
  dayChangePct : ℚ
  week52High : ℚ
  previousHighDate : Int
  daysSincePrevHigh : Int
  newHigh : String
deriving DecidableEq

/-- Lines 168–171 of `scan_weekly_highs`: the bars of `hist_data` inside the
target week `[start_date, end_date]`, both ends inclusive. -/
def weekBars (histData : List Bar) (startDate endDate : Int) : List Bar :=
  histData.filter (fun b =>
    decide (startDate ≤ b.date) && decide (b.date ≤ endDate))

/-- Lines 173–202 of `scan_weekly_highs`: walk the week's bars in stored
(date-ascending) order; on the first bar whose `is_52_week_high` test is true,
build the result record and `break`.  The `getD 0` defaults model Python's
use of the tuple's `None` components — unreachable when `is_high` is true,
since the 200-bar guard was passed and the maximum is attained. -/
def firstWeekHigh (histData : List Bar) (ticker : String) :
    List Bar → Option HighEvent
  | [] => none
  | b :: rest =>
    let r := is52WeekHigh histData b.high b.date tolDefault
    if r.1 then
      some {
        stock := ticker.replace ".NS" ""
        date := b.date
        high := round2 b.high
        close := round2 b.close
        volume := b.volume
        dayChangePct := round2 ((b.close - b.open_) / b.open_ * 100)
        week52High := round2 (r.2.1.getD 0)
        previousHighDate := r.2.2.getD 0
        daysSincePrevHigh := b.date - r.2.2.getD 0
        newHigh := if b.high > r.2.1.getD 0 then "Yes" else "Matched" }
    else firstWeekHigh histData ticker rest

/-- The mutable state of the scan loop: collected result rows plus the
success / error counters. -/
structure ScanState where
  results : List HighEvent
  successCount : Nat
  errorCount : Nat
deriving DecidableEq

/-- The body of the per-ticker loop of `scan_weekly_highs` (lines 150–208).
`fetch` is the data source (`yf.Ticker(...).history`), called with the
buffered range `[start_date - 400, end_date + 1)`; `Except.error` models the
caught exception path (error counted, scan continues), `.ok []` the
"No data for ticker" warning path (also error counted). -/
def processSymbol (fetch : String → Int → Int → Except String (List Bar))
    (startDate endDate : Int) (st : ScanState) (ticker : String) : ScanState :=
  match fetch ticker (startDate - 400) (endDate + 1) with
  | Except.error _ => { st with errorCount := st.errorCount + 1 }
  | Except.ok histData =>
    if histData.length = 0 then
      { st with errorCount := st.errorCount + 1 }
    else
      match firstWeekHigh histData ticker (weekBars histData startDate endDate) with
      | some ev =>
        { st with results := st.results ++ [ev],
                  successCount := st.successCount + 1 }
      | none => { st with successCount := st.successCount + 1 }

/-- The comparison key of line 213, `sort_values(['Date', 'Stock'])`:
date ascending, then stock ascending. -/
def eventLE (a b : HighEvent) : Bool :=
  decide (a.date < b.date) ||
    (decide (a.date = b.date) && decide (a.stock ≤ b.stock))

/-- The `nifty100_stocks` list of `__init__` (lines 47–62), in source order. -/
def nifty100Stocks : List String :=
  ["ABB", "ADANIENSOL", "ADANIENT", "ADANIGREEN", "ADANIPORTS", "ADANIPOWER",
   "AMBUJACEM",
   "APOLLOHOSP", "ASIANPAINT", "AXISBANK", "BAJAJ-AUTO", "BAJAJFINSV",
   "BAJAJHFL", "BAJAJHLDNG", "BAJFINANCE",
   "BANKBARODA", "BEL", "BHARTIARTL", "BOSCHLTD", "BPCL", "BRITANNIA", "CANBK",
   "CGPOWER", "CHOLAFIN", "CIPLA", "COALINDIA", "DABUR", "DIVISLAB", "DLF",
   "DMART",
   "DRREDDY", "EICHERMOT", "ETERNAL", "GAIL", "GODREJCP", "GRASIM", "HAL",
   "HAVELLS", "HCLTECH", "HDFCBANK", "HDFCLIFE", "HEROMOTOCO", "HINDALCO",
   "HINDUNILVR",
   "HYUNDAI", "ICICIBANK", "ICICIGI", "ICICIPRULI", "INDHOTEL", "INDIGO",
   "INDUSINDBK", "INFY", "IOC", "IRFC", "ITC", "JINDALSTEL", "JIOFIN",
   "JSWENERGY", "JSWSTEEL", "KOTAKBANK", "LICI", "LODHA", "LT", "LTIM",
   "M&M", "MARUTI", "MOTHERSON", "NAUKRI", "NESTLEIND", "NTPC", "ONGC", "PFC",
   "PIDILITIND", "PNB", "POWERGRID", "RECLTD", "RELIANCE", "SBILIFE", "SBIN",
   "SHREECEM",
   "SHRIRAMFIN", "SIEMENS", "SUNPHARMA", "SWIGGY", "TATACONSUM", "TATAMOTORS",
   "TATAPOWER", "TATASTEEL",
   "TCS", "TECHM", "TITAN", "TORNTPHARM", "TRENT", "TVSMOTOR", "ULTRACEMCO",
   "UNITDSPR",
   "VBL", "VEDL", "WIPRO", "ZYDUSLIFE"]

/-- Line 65–66: limit to 100 stocks and add the `.NS` suffix for yfinance. -/
def nifty100WithNS : List String :=
  (nifty100Stocks.take 100).map (fun stock => stock ++ ".NS")

/-- `scan_weekly_highs` with the symbol universe and data source explicit.
The source iterates the universe in batches of 10, but batching only affects
progress logging: the flattened iteration order over tickers is exactly the
list order, which is what the fold models.  Sorting happens after the loop
(line 213); sorting the empty list is the empty DataFrame of line 215. -/
def scanWeeklyHighsOn (fetch : String → Int → Int → Except String (List Bar))
    (universeL : List String) (today : Int) (weeksBack : Nat) : ScanState :=
  let dates := getWeekDates today weeksBack
  let finalState :=
    universeL.foldl (processSymbol fetch dates.1 dates.2) ⟨[], 0, 0⟩
  { finalState with results := finalState.results.mergeSort eventLE }

/-- `scan_weekly_highs(weeks_back)` proper: the universe is the instance's
`nifty100_with_ns` list. -/
def scanWeeklyHighs (fetch : String → Int → Int → Except String (List Bar))
    (today : Int) (weeksBack : Nat) : ScanState :=
  scanWeeklyHighsOn fetch nifty100WithNS today weeksBack

/-- When the qualification bit is true, the 200-bar guard was passed, so the
returned trailing high is the window maximum. -/
theorem is52_snd_of_fst {histData : List Bar} {c : ℚ} {d : Int} {tol : ℚ}
    (h : (is52WeekHigh histData c d tol).1 = true) :
    (is52WeekHigh histData c d tol).2.1 =
      some (maxHigh (baselineBars histData d)) := by
  by_cases hlt : (baselineBars histData d).length < 200
  · simp [is52WeekHigh, hlt] at h
  · simp [is52WeekHigh, hlt]

/-- A bar of the series always lies inside its own baseline window. -/
theorem self_mem_baseline {b : Bar} {histData : List Bar} (hb : b ∈ histData) :
    b ∈ baselineBars histData b.date := by
  simp only [baselineBars, List.mem_filter, hb, true_and, Bool.and_eq_true,
    decide_eq_true_eq]
  omega

/-- Any event emitted by the week loop is classified "Matched", provided the
week's bars come from the series used as history (as in the scan, where the
week rows are a filter of `hist_data`): the checked bar lies inside its own
baseline window, so its high can never strictly exceed the window maximum. -/
theorem firstWeekHigh_newHigh_matched {histData : List Bar} {ticker : String} :
    ∀ {wd : List Bar}, (∀ b ∈ wd, b ∈ histData) →
      ∀ {e : HighEvent}, firstWeekHigh histData ticker wd = some e →
        e.newHigh = "Matched"
  | [], _, _, he => by simp [firstWeekHigh] at he
  | b :: rest, hsub, e, he => by
    by_cases hq : (is52WeekHigh histData b.high b.date tolDefault).1 = true
    · simp only [firstWeekHigh, hq, if_true] at he
      have hsnd := is52_snd_of_fst hq
      have hble : b.high ≤ maxHigh (baselineBars histData b.date) :=
        le_maxHigh_of_mem (self_mem_baseline (hsub b (List.mem_cons_self b rest)))
      have hnot : ¬ b.high >
          (is52WeekHigh histData b.high b.date tolDefault).2.1.getD 0 := by
        rw [hsnd]
        simpa using hble
      rcases Option.some_inj.mp he with rfl
      simp [hnot]
    · rw [Bool.not_eq_true] at hq
      have hunf : firstWeekHigh histData ticker (b :: rest)
          = firstWeekHigh histData ticker rest := by
        simp [firstWeekHigh, hq]
      rw [hunf] at he
      exact firstWeekHigh_newHigh_matched
        (fun b2 hb2 => hsub b2 (List.mem_cons_of_mem _ hb2)) he

/-- The "all results Matched" invariant is preserved through the whole
per-ticker fold. -/
theorem foldl_results_matched
    (fetch : String → Int → Int → Except String (List Bar)) (s e : Int) :
    ∀ (l : List String) (st : ScanState),
      (∀ ev ∈ st.results, ev.newHigh = "Matched") →
      ∀ ev ∈ (l.foldl (processSymbol fetch s e) st).results,
        ev.newHigh = "Matched"
  | [], st, hst => hst
  | t :: rest, st, hst => by
    rw [List.foldl_cons]
    refine foldl_results_matched fetch s e rest _ ?_
    intro ev hev
    unfold processSymbol at hev
    rcases hf : fetch t (s - 400) (e + 1) with msg | histData
    · rw [hf] at hev; exact hst ev hev
    · rw [hf] at hev
      by_cases h0 : histData.length = 0
      · simp only [h0, if_true] at hev; exact hst ev hev
      · simp only [h0, if_false] at hev
        rcases hw : firstWeekHigh histData t (weekBars histData s e) with _ | ev'
        · rw [hw] at hev; exact hst ev hev
        · rw [hw] at hev
          simp only [List.mem_append, List.mem_singleton] at hev
          rcases hev with hev | rfl
          · exact hst ev hev
          · exact firstWeekHigh_newHigh_matched
              (fun b hb => List.mem_of_mem_filter hb) hw

/-- C3: the baseline window `[check_date - 365, check_date]` always contains
the bar being checked, so the day's high never strictly exceeds the computed
52-week high; hence every HighEvent the scan emits has `New_High = "Matched"`
— the `'Yes'` (strictly-new-high) branch of line 198 is unreachable. -/
theorem c3_yes_branch_unreachable
    (fetch : String → Int → Int → Except String (List Bar))
    (universeL : List String) (today : Int) (weeksBack : Nat) (e : HighEvent)
    (he : e ∈ (scanWeeklyHighsOn fetch universeL today weeksBack).results) :
    e.newHigh = "Matched" := by
  have : e ∈ (universeL.foldl
      (processSymbol fetch (getWeekDates today weeksBack).1
        (getWeekDates today weeksBack).2) ⟨[], 0, 0⟩).results := by
    simpa [scanWeeklyHighsOn, List.mem_mergeSort] using he
  exact foldl_results_matched _ _ _ universeL ⟨[], 0, 0⟩ (by simp) e this

/-- The week loop on a date-sorted bar list: `none` on an empty week, and an
emitted event belongs to the earliest qualifying bar of the week. -/
theorem firstWeekHigh_first_qualifying {histData : List Bar} {ticker : String} :
    ∀ {wd : List Bar}, wd.Pairwise (fun a b => a.date < b.date) →
      ∀ {e : HighEvent}, firstWeekHigh histData ticker wd = some e →
        ∃ b ∈ wd, e.date = b.date ∧
          (is52WeekHigh histData b.high b.date tolDefault).1 = true ∧
          ∀ b2 ∈ wd, (is52WeekHigh histData b2.high b2.date tolDefault).1 = true →
            b.date ≤ b2.date
  | [], _, _, he => by simp [firstWeekHigh] at he
  | b :: rest, hs, e, he => by
    rcases List.pairwise_cons.mp hs with ⟨hhead, htail⟩
    by_cases hq : (is52WeekHigh histData b.high b.date tolDefault).1 = true
    · simp only [firstWeekHigh, hq, if_true] at he
      rcases Option.some_inj.mp he with rfl
      refine ⟨b, List.mem_cons_self b rest, rfl, hq, ?_⟩
      intro b2 hb2 _
      rcases List.mem_cons.mp hb2 with rfl | h'
      · exact le_refl _
      · exact le_of_lt (hhead b2 h')
    · rw [Bool.not_eq_true] at hq
      have hunf : firstWeekHigh histData ticker (b :: rest)
          = firstWeekHigh histData ticker rest := by
        simp [firstWeekHigh, hq]
      rw [hunf] at he
      obtain ⟨b', hb', hdate, hq', hmin⟩ :=
        firstWeekHigh_first_qualifying htail he
      refine ⟨b', List.mem_cons_of_mem _ hb', hdate, hq', ?_⟩
      intro b2 hb2 hq2
      rcases List.mem_cons.mp hb2 with rfl | h'
      · rw [hq] at hq2; cases hq2
      · exact hmin b2 h' hq2

/-- C5: the scan walks a symbol's week bars in ascending date order and emits
at most one HighEvent per symbol per window — the one for the earliest
qualifying day (after which the loop `break`s); an empty week yields no
event, and one scan-loop step grows the result list by at most one row. -/
theorem c5_first_match (histData : List Bar) (ticker : String)
    (startDate endDate : Int)
    (hsorted : histData.Pairwise (fun a b => a.date < b.date)) :
    (weekBars histData startDate endDate = [] →
      firstWeekHigh histData ticker (weekBars histData startDate endDate)
        = none) ∧
    (∀ e, firstWeekHigh histData ticker (weekBars histData startDate endDate)
        = some e →
      ∃ b ∈ weekBars histData startDate endDate, e.date = b.date ∧
        (is52WeekHigh histData b.high b.date tolDefault).1 = true ∧
        ∀ b2 ∈ weekBars histData startDate endDate,
          (is52WeekHigh histData b2.high b2.date tolDefault).1 = true →
            b.date ≤ b2.date) ∧
    (∀ (fetch : String → Int → Int → Except String (List Bar))
        (st : ScanState) (t : String),
      (processSymbol fetch startDate endDate st t).results.length ≤
        st.results.length + 1) := by
  refine ⟨?_, ?_, ?_⟩
  · intro h0; rw [h0]; rfl
  · intro e he
    exact firstWeekHigh_first_qualifying (List.Pairwise.filter _ hsorted) he
  · intro fetch st t
    unfold processSymbol
    rcases fetch t (startDate - 400) (endDate + 1) with msg | histData'
    · simp
    · by_cases h0 : histData'.length = 0
      · simp [h0]
      · simp only [h0, if_false]
        rcases firstWeekHigh histData' t (weekBars histData' startDate endDate)
          with _ | ev
        · simp
        · simp

/-- The week loop emits nothing when every bar of the week lacks the 200-bar
baseline history. -/
theorem firstWeekHigh_none_of_short {histData : List Bar} {ticker : String} :
    ∀ {wd : List Bar},
      (∀ b ∈ wd, (baselineBars histData b.date).length < 200) →
      firstWeekHigh histData ticker wd = none
  | [], _ => rfl
  | b :: rest, hshort => by
    have hb : (baselineBars histData b.date).length < 200 :=
      hshort b (List.mem_cons_self b rest)
    have hq : (is52WeekHigh histData b.high b.date tolDefault).1 = false := by
      simp [is52WeekHigh, hb]
    simp only [firstWeekHigh, hq, if_false]
    exact firstWeekHigh_none_of_short
      (fun b2 hb2 => hshort b2 (List.mem_cons_of_mem _ hb2))

/-- C6: whenever the baseline window holds fewer than 200 bars the detector
declines to classify — `is_52_week_high` returns `(False, None, None)` (and,
being a total function, raises nothing), the week loop emits no event, and
the symbol is still counted as a success, not as an error. -/
theorem c6_insufficient_history
    (fetch : String → Int → Int → Except String (List Bar))
    (histData : List Bar) (ticker : String) (startDate endDate : Int)
    (st : ScanState)
    (hfetch : fetch ticker (startDate - 400) (endDate + 1)
      = Except.ok histData)
    (hne : histData.length ≠ 0)
    (hshort : ∀ b ∈ weekBars histData startDate endDate,
      (baselineBars histData b.date).length < 200) :
    (∀ (c : ℚ) (d : Int) (tol : ℚ), (baselineBars histData d).length < 200 →
      is52WeekHigh histData c d tol = (false, none, none)) ∧
    firstWeekHigh histData ticker (weekBars histData startDate endDate)
      = none ∧
    processSymbol fetch startDate endDate st ticker
      = { st with successCount := st.successCount + 1 } := by
  refine ⟨?_, firstWeekHigh_none_of_short hshort, ?_⟩
  · intro c d tol hlt
    simp [is52WeekHigh, hlt]
  · unfold processSymbol
    rw [hfetch]
    simp only [hne, if_false]
    rw [firstWeekHigh_none_of_short hshort]

/-- Each scan-loop step increments exactly one of the two counters. -/
theorem processSymbol_one_counter
    (fetch : String → Int → Int → Except String (List Bar))
    (s e : Int) (st : ScanState) (t : String) :
    ((processSymbol fetch s e st t).successCount = st.successCount + 1 ∧
      (processSymbol fetch s e st t).errorCount = st.errorCount) ∨
    ((processSymbol fetch s e st t).successCount = st.successCount ∧
      (processSymbol fetch s e st t).errorCount = st.errorCount + 1) := by
  unfold processSymbol
  rcases fetch t (s - 400) (e + 1) with msg | histData
  · exact Or.inr ⟨rfl, rfl⟩
  · dsimp only
    by_cases h0 : histData.length = 0
    · rw [if_pos h0]
      exact Or.inr ⟨rfl, rfl⟩
    · rw [if_neg h0]
      rcases firstWeekHigh histData t (weekBars histData s e) with _ | ev
      · exact Or.inl ⟨rfl, rfl⟩
      · exact Or.inl ⟨rfl, rfl⟩

/-- Counter bookkeeping through the whole fold: each ticker adds exactly one
to `success + error`. -/
theorem foldl_counts
    (fetch : String → Int → Int → Except String (List Bar)) (s e : Int) :
    ∀ (l : List String) (st : ScanState),
      (l.foldl (processSymbol fetch s e) st).successCount +
        (l.foldl (processSymbol fetch s e) st).errorCount =
      st.successCount + st.errorCount + l.length
  | [], st => by simp
  | t :: rest, st => by
    rw [List.foldl_cons]
    rw [foldl_counts fetch s e rest (processSymbol fetch s e st t)]
    rcases processSymbol_one_counter fetch s e st t with ⟨h1, h2⟩ | ⟨h1, h2⟩ <;>
      rw [h1, h2] <;> simp <;> omega

/-- C9: a failure on one symbol (a fetch that raises, or a fetch returning no
bars) never aborts the scan: it is counted in `error_count` and changes
nothing else, the fold continues with the remaining symbols from the
accumulated state, each symbol increments exactly one of the two counters,
and after the scan `success_count + error_count` equals the size of the
universe. -/
theorem c9_per_symbol_isolation
    (fetch : String → Int → Int → Except String (List Bar))
    (universeL : List String) (today : Int) (weeksBack : Nat) :
    ((scanWeeklyHighsOn fetch universeL today weeksBack).successCount +
      (scanWeeklyHighsOn fetch universeL today weeksBack).errorCount
        = universeL.length) ∧
    (∀ (s e : Int) (st : ScanState) (t : String),
      ((processSymbol fetch s e st t).successCount = st.successCount + 1 ∧
        (processSymbol fetch s e st t).errorCount = st.errorCount) ∨
      ((processSymbol fetch s e st t).successCount = st.successCount ∧
        (processSymbol fetch s e st t).errorCount = st.errorCount + 1)) ∧
    (∀ (msg : String) (s e : Int) (st : ScanState) (t : String),
      processSymbol (fun _ _ _ => Except.error msg) s e st t
          = { st with errorCount := st.errorCount + 1 } ∧
      processSymbol (fun _ _ _ => Except.ok []) s e st t
          = { st with errorCount := st.errorCount + 1 }) ∧
    (∀ (pre post : List String) (s e : Int) (st : ScanState),
      (pre ++ post).foldl (processSymbol fetch s e) st
        = post.foldl (processSymbol fetch s e)
            (pre.foldl (processSymbol fetch s e) st)) := by
  refine ⟨?_, processSymbol_one_counter fetch, ?_, ?_⟩
  · have h := foldl_counts fetch (getWeekDates today weeksBack).1
      (getWeekDates today weeksBack).2 universeL ⟨[], 0, 0⟩
    simpa [scanWeeklyHighsOn] using h
  · intro msg s e st t
    exact ⟨rfl, rfl⟩
  · intro pre post s e st
    exact List.foldl_append (processSymbol fetch s e) st pre post

/-- The sort key of line 213 is transitive. -/
theorem eventLE_trans (a b c : HighEvent)
    (hab : eventLE a b = true) (hbc : eventLE b c = true) :
    eventLE a c = true := by
  simp only [eventLE, Bool.or_eq_true, Bool.and_eq_true, decide_eq_true_eq]
    at hab hbc ⊢
  rcases hab with h1 | ⟨h1, h1'⟩ <;> rcases hbc with h2 | ⟨h2, h2'⟩
  · exact Or.inl (lt_trans h1 h2)
  · exact Or.inl (h2 ▸ h1)
  · exact Or.inl (h1 ▸ h2)
  · exact Or.inr ⟨h1.trans h2, le_trans h1' h2'⟩

/-- The sort key of line 213 is total. -/
theorem eventLE_total (a b : HighEvent) :
    (eventLE a b || eventLE b a) = true := by
  simp only [eventLE, Bool.or_eq_true, Bool.and_eq_true, decide_eq_true_eq]
  rcases lt_trichotomy a.date b.date with h | h | h
  · exact Or.inl (Or.inl h)
  · rcases le_total a.stock b.stock with hs | hs
    · exact Or.inl (Or.inr ⟨h, hs⟩)
    · exact Or.inr (Or.inr ⟨h.symm, hs⟩)
  · exact Or.inr (Or.inl h)

/-- C10: the scan returns its collected HighEvents sorted by date ascending,
then by symbol ascending (`sort_values(['Date', 'Stock'])`). -/
theorem c10_results_sorted
    (fetch : String → Int → Int → Except String (List Bar))
    (universeL : List String) (today : Int) (weeksBack : Nat) :
    (scanWeeklyHighsOn fetch universeL today weeksBack).results.Pairwise
      (fun a b => a.date < b.date ∨ (a.date = b.date ∧ a.stock ≤ b.stock)) := by
  have h := List.sorted_mergeSort eventLE_trans eventLE_total
    ((universeL.foldl (processSymbol fetch (getWeekDates today weeksBack).1
      (getWeekDates today weeksBack).2) ⟨[], 0, 0⟩).results)
  have hres : (scanWeeklyHighsOn fetch universeL today weeksBack).results
      = ((universeL.foldl (processSymbol fetch (getWeekDates today weeksBack).1
          (getWeekDates today weeksBack).2) ⟨[], 0, 0⟩).results).mergeSort
            eventLE := rfl
  rw [hres]
  refine h.imp ?_
  intro a b hab
  simpa [eventLE, Bool.or_eq_true, Bool.and_eq_true, decide_eq_true_eq]
    using hab

/-- A flat trading day used by the concrete test scenarios: every price 100,
volume 1000. -/
def flatBar (d : Int) : Bar :=
  { date := d, open_ := 100, high := 100, low := 100, close := 100,
    volume := 1000 }

/-- `n` consecutive flat days starting at date `d0`. -/
def flatSeries (n : Nat) (d0 : Int) : List Bar :=
  (List.range n).map (fun (i : Nat) => flatBar (d0 + (i : Int)))

theorem flatSeries_length (n : Nat) (d0 : Int) : (flatSeries n d0).length = n := by
  simp [flatSeries]

theorem flatSeries_succ (n : Nat) (d0 : Int) :
    flatSeries (n + 1) d0 = flatBar d0 :: flatSeries n (d0 + 1) := by
  unfold flatSeries
  rw [List.range_succ_eq_map, List.map_cons, List.map_map]
  congr 1
  · norm_num
  · apply List.map_congr_left
    intro i _
    simp only [Function.comp_apply]
    congr 1
    push_cast
    ring

theorem flatSeries_mem {b : Bar} {n : Nat} {d0 : Int}
    (h : b ∈ flatSeries n d0) :
    b.high = 100 ∧ d0 ≤ b.date ∧ b.date < d0 + n := by
  simp only [flatSeries, List.mem_map, List.mem_range] at h
  obtain ⟨i, hi, rfl⟩ := h
  refine ⟨rfl, ?_, ?_⟩ <;> simp only [flatBar] <;> omega

theorem flatSeries_sorted (n : Nat) (d0 : Int) :
    (flatSeries n d0).Pairwise (fun a b => a.date < b.date) := by
  unfold flatSeries
  rw [List.pairwise_map]
  refine (List.pairwise_lt_range n).imp ?_
  intro i j hij
  simp only [flatBar]
  omega

theorem baselineBars_append (l1 l2 : List Bar) (check : Int) :
    baselineBars (l1 ++ l2) check
      = baselineBars l1 check ++ baselineBars l2 check :=
  List.filter_append _ _

theorem weekBars_append (l1 l2 : List Bar) (s e : Int) :
    weekBars (l1 ++ l2) s e = weekBars l1 s e ++ weekBars l2 s e :=
  List.filter_append _ _

theorem baselineBars_eq_self {l : List Bar} {check : Int}
    (h : ∀ b ∈ l, check - 365 ≤ b.date ∧ b.date ≤ check) :
    baselineBars l check = l := by
  apply List.filter_eq_self.mpr
  intro b hb
  simpa using h b hb

theorem weekBars_eq_self {l : List Bar} {s e : Int}
    (h : ∀ b ∈ l, s ≤ b.date ∧ b.date ≤ e) : weekBars l s e = l := by
  apply List.filter_eq_self.mpr
  intro b hb
  simpa using h b hb

theorem weekBars_eq_nil {l : List Bar} {s e : Int}
    (h : ∀ b ∈ l, b.date < s ∨ e < b.date) : weekBars l s e = [] := by
  apply List.filter_eq_nil_iff.mpr
  intro b hb
  have := h b hb
  simp only [Bool.and_eq_true, decide_eq_true_eq, not_and]
  omega

theorem maxHigh_cons_of_ne (b : Bar) {l : List Bar} (h : l ≠ []) :
    maxHigh (b :: l) = max b.high (maxHigh l) := by
  cases l with
  | nil => exact absurd rfl h
  | cons c cs => exact maxHigh_cons b c cs

theorem maxHigh_flat_append (rest : List Bar) (hrest : rest ≠ []) :
    ∀ (n : Nat) (d0 : Int),
      maxHigh (flatSeries n d0 ++ rest)
        = if n = 0 then maxHigh rest else max 100 (maxHigh rest)
  | 0, d0 => by simp [flatSeries]
  | n + 1, d0 => by
    rw [flatSeries_succ, List.cons_append,
      maxHigh_cons_of_ne _ (by simp [hrest]),
      maxHigh_flat_append rest hrest n (d0 + 1)]
    by_cases hn : n = 0
    · simp [hn, flatBar]
    · simp only [hn, if_false, Nat.add_one_ne_zero, flatBar]
      rw [← max_assoc, max_self]

theorem maxHigh_flat : ∀ (n : Nat) (d0 : Int), n ≠ 0 →
    maxHigh (flatSeries n d0) = 100
  | 0, _, h => absurd rfl h
  | 1, d0, _ => by rw [flatSeries_succ]; rfl
  | n + 2, d0, _ => by
    rw [flatSeries_succ, maxHigh_cons_of_ne _ (by
      rw [flatSeries_succ]; exact List.cons_ne_nil _ _)]
    rw [maxHigh_flat (n + 1) (d0 + 1) (Nat.succ_ne_zero n)]
    simp [flatBar]

theorem find?_append_of_none {α : Type} {p : α → Bool} :
    ∀ {l1 : List α} (l2 : List α), l1.find? p = none →
      (l1 ++ l2).find? p = l2.find? p
  | [], l2, _ => rfl
  | a :: l1, l2, h => by
    rcases List.find?_eq_none.mp h a (List.mem_cons_self a l1) with ha
    rw [List.cons_append, List.find?_cons_of_neg _ ha]
    exact find?_append_of_none l2
      (List.find?_eq_none.mpr
        (fun x hx => List.find?_eq_none.mp h x (List.mem_cons_of_mem a hx)))

/-- No flat bar attains a high strictly above 100, so `find?` skips the flat
prefix when looking for a larger maximum. -/
theorem find?_flat_none {m : ℚ} (hm : m ≠ 100) (n : Nat) (d0 : Int) :
    (flatSeries n d0).find? (fun b => decide (b.high = m)) = none := by
  apply List.find?_eq_none.mpr
  intro b hb
  have := (flatSeries_mem hb).1
  simp only [decide_eq_true_eq]
  rw [this]
  exact fun h => hm h.symm

/-- `round(x, 2)` fixes integral values. -/
theorem round2_int (n : ℤ) : round2 ((n : ℚ)) = (n : ℚ) := by
  unfold round2
  rw [show ((n : ℚ) * 100) = (((n * 100 : ℤ)) : ℚ) by push_cast; ring,
    round_intCast]
  push_cast
  field_simp

theorem round2_zero : round2 0 = 0 := by
  have h := round2_int 0
  norm_num at h
  exact h

theorem round2_104 : round2 104 = 104 := by
  have h := round2_int 104
  norm_num at h
  exact h

theorem round2_105 : round2 105 = 105 := by
  have h := round2_int 105
  norm_num at h
  exact h

/-- The Wednesday bar of the C2 scenario: daily high 105 on day 702 (a
Wednesday: 702 % 7 = 2). -/
def wedBar : Bar :=
  { date := 702, open_ := 104, high := 105, low := 103, close := 104,
    volume := 2000 }

/-- The Thursday bar of the C2 scenario: daily high 102 on day 703. -/
def thuBar : Bar :=
  { date := 703, open_ := 101, high := 102, low := 100, close := 101,
    volume := 1500 }

/-- The C2 scenario series for symbol "X": daily highs flat at 100 for 300
days (dates 400–699), then 105 on the Wednesday (day 702) of the target week,
then 102 on Thursday (day 703). -/
def seriesX : List Bar := flatSeries 300 400 ++ [wedBar, thuBar]

/-- A data source that knows only symbol "X" (ticker "X.NS"). -/
def fetchX : String → Int → Int → Except String (List Bar) :=
  fun t _ _ => if t = "X.NS" then Except.ok seriesX else Except.error "no data"

/-- The event the scan actually emits on the C2 scenario. -/
def eventX : HighEvent :=
  { stock := "X.NS".replace ".NS" "", date := 702, high := 105, close := 104,
    volume := 2000, dayChangePct := 0, week52High := 105,
    previousHighDate := 702, daysSincePrevHigh := 0, newHigh := "Matched" }

theorem baselineX : baselineBars seriesX 702 = flatSeries 300 400 ++ [wedBar] := by
  have h1 : baselineBars (flatSeries 300 400) 702 = flatSeries 300 400 := by
    apply baselineBars_eq_self
    intro b hb
    obtain ⟨-, hb1, hb2⟩ := flatSeries_mem hb
    push_cast at hb2
    omega
  have h2 : baselineBars [wedBar, thuBar] 702 = [wedBar] := rfl
  unfold seriesX
  rw [baselineBars_append, h1, h2]

theorem baselineX_length : (baselineBars seriesX 702).length = 301 := by
  rw [baselineX]
  simp [flatSeries_length]

theorem maxHighX : maxHigh (baselineBars seriesX 702) = 105 := by
  rw [baselineX, maxHigh_flat_append [wedBar] (by simp) 300 400,
    if_neg (by norm_num : ¬ (300 : ℕ) = 0),
    show maxHigh [wedBar] = 105 from rfl]
  exact max_eq_right (by norm_num)

theorem idxmaxX : idxmaxHighDate (baselineBars seriesX 702) = some 702 := by
  simp only [idxmaxHighDate]
  rw [maxHighX, baselineX,
    find?_append_of_none _ (find?_flat_none (by norm_num) 300 400),
    List.find?_cons_of_pos _ (by rfl)]
  rfl

theorem is52X : is52WeekHigh seriesX wedBar.high wedBar.date tolDefault
    = (true, some 105, some 702) := by
  show is52WeekHigh seriesX 105 702 tolDefault = (true, some 105, some 702)
  simp only [is52WeekHigh]
  rw [baselineX_length, if_neg (by norm_num : ¬ (301 : ℕ) < 200), maxHighX,
    idxmaxX]
  have hdec : decide ((105 : ℚ) ≥ 105 * (1 - tolDefault)) = true := by
    rw [decide_eq_true_eq]
    unfold tolDefault
    norm_num
  rw [hdec]

theorem weekX : weekBars seriesX 700 704 = [wedBar, thuBar] := by
  unfold seriesX
  rw [weekBars_append, weekBars_eq_nil (by
    intro b hb
    obtain ⟨-, h1, h2⟩ := flatSeries_mem hb
    push_cast at h2
    left
    omega)]
  rfl

theorem firstWeekHighX :
    firstWeekHigh seriesX "X.NS" [wedBar, thuBar] = some eventX := by
  simp only [firstWeekHigh]
  rw [is52X]
  simp only [Option.getD_some, eventX, if_true]
  refine congrArg some ?_
  have hdc : (wedBar.close - wedBar.open_) / wedBar.open_ * 100 = 0 := by
    show ((104 : ℚ) - 104) / 104 * 100 = 0
    norm_num
  simp only [HighEvent.mk.injEq, hdc]
  simp [wedBar, round2_105, round2_104, round2_zero]

theorem getWeekDatesX : getWeekDates 702 0 = (700, 704) := by decide

theorem seriesX_length_ne : ¬ seriesX.length = 0 := by
  simp [seriesX, flatSeries_length]

theorem scanX : scanWeeklyHighsOn fetchX ["X.NS"] 702 0
    = { results := [eventX], successCount := 1, errorCount := 0 } := by
  have h1 : processSymbol fetchX 700 704
      { results := [], successCount := 0, errorCount := 0 } "X.NS"
      = { results := [eventX], successCount := 1, errorCount := 0 } := by
    unfold processSymbol
    rw [show fetchX "X.NS" (700 - 400) (704 + 1) = Except.ok seriesX from rfl]
    dsimp only
    rw [if_neg seriesX_length_ne, weekX, firstWeekHighX]
    rfl
  have h2 : List.foldl (processSymbol fetchX 700 704)
      { results := [], successCount := 0, errorCount := 0 } ["X.NS"]
      = { results := [eventX], successCount := 1, errorCount := 0 } := by
    rw [List.foldl_cons, h1, List.foldl_nil]
  unfold scanWeeklyHighsOn
  rw [getWeekDatesX]
  dsimp only
  rw [h2]
  dsimp only
  rw [List.perm_singleton.mp (List.mergeSort_perm [eventX] eventLE)]

/-- C2 fails on the code: on the scenario series (300 flat days at 100, then
105 on the Wednesday of the target week, then 102 on Thursday) the scan does
emit exactly one event dated Wednesday (day 702), but its
`trailing_52w_high` is 105 — not 100 — its classification is "Matched" — not
"New" — and `days_since_prior_high` is 0, not the distance to the earliest of
the 300 tied dates: the baseline window `[check_date - 365, check_date]`
includes the Wednesday bar itself, so the day's own 105 is the baseline. -/
theorem c2_counterexample :
    (scanWeeklyHighsOn fetchX ["X.NS"] 702 0).results = [eventX] ∧
    eventX.date = 702 ∧ (702 : Int) % 7 = 2 ∧
    ¬ eventX.week52High = 100 ∧
    ¬ eventX.newHigh = "New" ∧
    ¬ eventX.daysSincePrevHigh = 702 - 400 := by
  refine ⟨by rw [scanX], rfl, by decide, ?_, ?_, ?_⟩
  · show ¬ (105 : ℚ) = 100
    norm_num
  · show ¬ "Matched" = "New"
    decide
  · show ¬ (0 : ℤ) = 702 - 400
    decide

/-- C2 amended: on the scenario series the scan emits exactly one HighEvent,
dated the Wednesday (day 702, weekday 2), with `trailing_52w_high = 105` (the
trailing window includes the checked bar itself, so the day's own high is the
baseline), classification "Matched", and `days_since_prior_high = 0`
(measured against the Wednesday bar itself — the first bar attaining the
window maximum); the symbol is counted as one success and no error. -/
theorem c2_scenario_amended :
    (scanWeeklyHighsOn fetchX ["X.NS"] 702 0).results = [eventX] ∧
    eventX.date = 702 ∧ (702 : Int) % 7 = 2 ∧
    eventX.week52High = 105 ∧
    eventX.newHigh = "Matched" ∧
    eventX.daysSincePrevHigh = 0 ∧
    eventX.high = 105 ∧
    (scanWeeklyHighsOn fetchX ["X.NS"] 702 0).successCount = 1 ∧
    (scanWeeklyHighsOn fetchX ["X.NS"] 702 0).errorCount = 0 := by
  refine ⟨by rw [scanX], rfl, by decide, rfl, rfl, rfl, rfl, ?_, ?_⟩
  · rw [scanX]
  · rw [scanX]

/-- Witness for C3: on the concrete scenario the scan emits `eventX`, and the
theorem yields its classification "Matched". -/
theorem c3_witness :
    eventX ∈ (scanWeeklyHighsOn fetchX ["X.NS"] 702 0).results ∧
    eventX.newHigh = "Matched" := by
  have hmem : eventX ∈ (scanWeeklyHighsOn fetchX ["X.NS"] 702 0).results := by
    rw [scanX]
    exact List.mem_singleton_self eventX
  exact ⟨hmem, c3_yes_branch_unreachable fetchX ["X.NS"] 702 0 eventX hmem⟩

theorem round2_100 : round2 100 = 100 := by
  have h := round2_int 100
  norm_num at h
  exact h

theorem baseline200 : baselineBars (flatSeries 200 0) 199 = flatSeries 200 0 := by
  apply baselineBars_eq_self
  intro b hb
  obtain ⟨-, hb1, hb2⟩ := flatSeries_mem hb
  push_cast at hb2
  omega

theorem baseline200_length : 200 ≤ (baselineBars (flatSeries 200 0) 199).length := by
  rw [baseline200, flatSeries_length]

theorem baseline200_maxpos : 0 < maxHigh (baselineBars (flatSeries 200 0) 199) := by
  rw [baseline200, maxHigh_flat 200 0 (by norm_num)]
  norm_num

/-- Witness for C1: a 200-day flat series at 100, checked on its last day with
tolerance 0. -/
theorem c1_witness :
    200 ≤ (baselineBars (flatSeries 200 0) 199).length ∧
    0 < maxHigh (baselineBars (flatSeries 200 0) 199) ∧
    (0 : ℚ) ≤ 0 ∧
    (((is52WeekHigh (flatSeries 200 0) 100 199 0).1 = true ↔
      (100 : ℚ) ≥ maxHigh (baselineBars (flatSeries 200 0) 199) * (1 - 0)) ∧
     ((0 : ℚ) ≤ 0 → (is52WeekHigh (flatSeries 200 0) 100 199 0).1 = true →
      (is52WeekHigh (flatSeries 200 0) 100 199 0).1 = true) ∧
     (is52WeekHigh (flatSeries 200 0)
        (maxHigh (baselineBars (flatSeries 200 0) 199)) 199 0).1 = true) :=
  ⟨baseline200_length, baseline200_maxpos, le_refl 0,
    c1_tolerance_band (flatSeries 200 0) 100 199 0 0 baseline200_length
      baseline200_maxpos (le_refl 0)⟩

/-- Witness for C4: the same 200-day flat series — all 200 bars tie at the
maximum, and the theorem reports the window max and the earliest tying date. -/
theorem c4_witness :
    (flatSeries 200 0).Pairwise (fun a b => a.date < b.date) ∧
    200 ≤ (baselineBars (flatSeries 200 0) 199).length ∧
    ((∀ b ∈ flatSeries 200 0,
      ((199 : ℤ) - 365 ≤ b.date ∧ b.date ≤ 199) ↔
        b ∈ baselineBars (flatSeries 200 0) 199) ∧
    (is52WeekHigh (flatSeries 200 0) 100 199 tolDefault).2.1 =
      some (maxHigh (baselineBars (flatSeries 200 0) 199)) ∧
    (∀ b ∈ baselineBars (flatSeries 200 0) 199,
      b.high ≤ maxHigh (baselineBars (flatSeries 200 0) 199)) ∧
    (∃ b ∈ baselineBars (flatSeries 200 0) 199,
      b.high = maxHigh (baselineBars (flatSeries 200 0) 199)) ∧
    ∃ d, (is52WeekHigh (flatSeries 200 0) 100 199 tolDefault).2.2 = some d ∧
      (∃ b ∈ baselineBars (flatSeries 200 0) 199,
        b.date = d ∧ b.high = maxHigh (baselineBars (flatSeries 200 0) 199)) ∧
      ∀ b ∈ baselineBars (flatSeries 200 0) 199,
        b.high = maxHigh (baselineBars (flatSeries 200 0) 199) → d ≤ b.date) :=
  ⟨flatSeries_sorted 200 0, baseline200_length,
    c4_trailing_window (flatSeries 200 0) 100 199 tolDefault
      (flatSeries_sorted 200 0) baseline200_length⟩

/-- The C5 witness series: 243 flat days (dates 0–242), a weekend gap, then a
full flat trading week (dates 245–249) — every day of the week qualifies. -/
def series5 : List Bar :=
  flatSeries 243 0 ++
    [flatBar 245, flatBar 246, flatBar 247, flatBar 248, flatBar 249]

theorem sorted5 : series5.Pairwise (fun a b => a.date < b.date) := by
  unfold series5
  rw [List.pairwise_append]
  refine ⟨flatSeries_sorted 243 0, ?_, ?_⟩
  · norm_num [List.pairwise_cons, flatBar]
  · intro a ha b hb
    obtain ⟨-, ha1, ha2⟩ := flatSeries_mem ha
    push_cast at ha2
    have hb' : (245 : ℤ) ≤ b.date := by
      simp only [List.mem_cons, List.not_mem_nil, or_false] at hb
      rcases hb with rfl | rfl | rfl | rfl | rfl <;> simp [flatBar]
    omega

theorem baseline5 : baselineBars series5 245
    = flatSeries 243 0 ++ [flatBar 245] := by
  have h1 : baselineBars (flatSeries 243 0) 245 = flatSeries 243 0 := by
    apply baselineBars_eq_self
    intro b hb
    obtain ⟨-, hb1, hb2⟩ := flatSeries_mem hb
    push_cast at hb2
    omega
  have h2 : baselineBars
      [flatBar 245, flatBar 246, flatBar 247, flatBar 248, flatBar 249] 245
      = [flatBar 245] := rfl
  unfold series5
  rw [baselineBars_append, h1, h2]

theorem maxHigh5 : maxHigh (baselineBars series5 245) = 100 := by
  rw [baseline5, maxHigh_flat_append [flatBar 245] (by simp) 243 0,
    if_neg (by norm_num : ¬ (243 : ℕ) = 0),
    show maxHigh [flatBar 245] = 100 from rfl, max_self]

theorem idxmax5 : idxmaxHighDate (baselineBars series5 245) = some 0 := by
  simp only [idxmaxHighDate]
  rw [maxHigh5, baseline5, flatSeries_succ, List.cons_append,
    List.find?_cons_of_pos _ (by rfl)]
  rfl

theorem baseline5_length : (baselineBars series5 245).length = 244 := by
  rw [baseline5]
  simp [flatSeries_length]

theorem is52_d245 : is52WeekHigh series5 (flatBar 245).high (flatBar 245).date
    tolDefault = (true, some 100, some 0) := by
  show is52WeekHigh series5 100 245 tolDefault = (true, some 100, some 0)
  simp only [is52WeekHigh]
  rw [baseline5_length, if_neg (by norm_num : ¬ (244 : ℕ) < 200), maxHigh5,
    idxmax5]
  have hdec : decide ((100 : ℚ) ≥ 100 * (1 - tolDefault)) = true := by
    rw [decide_eq_true_eq]
    unfold tolDefault
    norm_num
  rw [hdec]

theorem week5 : weekBars series5 245 249
    = [flatBar 245, flatBar 246, flatBar 247, flatBar 248, flatBar 249] := by
  unfold series5
  rw [weekBars_append, weekBars_eq_nil (by
    intro b hb
    obtain ⟨-, hb1, hb2⟩ := flatSeries_mem hb
    push_cast at hb2
    left
    omega)]
  rfl

/-- The event the week loop emits on the C5 witness series: the Monday
(day 245), the earliest of five qualifying days. -/
def event5 : HighEvent :=
  { stock := "Y".replace ".NS" "", date := 245, high := 100, close := 100,
    volume := 1000, dayChangePct := 0, week52High := 100,
    previousHighDate := 0, daysSincePrevHigh := 245, newHigh := "Matched" }

theorem first5 : firstWeekHigh series5 "Y" (weekBars series5 245 249)
    = some event5 := by
  rw [week5]
  simp only [firstWeekHigh]
  rw [is52_d245]
  simp only [Option.getD_some, event5, if_true]
  refine congrArg some ?_
  have hdc : ((flatBar 245).close - (flatBar 245).open_) / (flatBar 245).open_
      * 100 = 0 := by
    show ((100 : ℚ) - 100) / 100 * 100 = 0
    norm_num
  simp only [HighEvent.mk.injEq, hdc]
  simp [flatBar, round2_100, round2_zero]

/-- Witness for C5: a week with five qualifying days — the emitted event is
the earliest (the Monday, day 245). -/
theorem c5_witness :
    series5.Pairwise (fun a b => a.date < b.date) ∧
    firstWeekHigh series5 "Y" (weekBars series5 245 249) = some event5 ∧
    (∃ b ∈ weekBars series5 245 249, event5.date = b.date ∧
      (is52WeekHigh series5 b.high b.date tolDefault).1 = true ∧
      ∀ b2 ∈ weekBars series5 245 249,
        (is52WeekHigh series5 b2.high b2.date tolDefault).1 = true →
          b.date ≤ b2.date) :=
  ⟨sorted5, first5, (c5_first_match series5 "Y" 245 249 sorted5).2.1 event5 first5⟩

/-- The C6 witness series: only 50 days of history (dates 0–49), far below
the 200-bar requirement, with the last day inside the scanned week. -/
def series6 : List Bar := flatSeries 49 0 ++ [flatBar 49]

/-- A data source returning the short series for every ticker. -/
def fetch6 : String → Int → Int → Except String (List Bar) :=
  fun _ _ _ => Except.ok series6

theorem series6_length : series6.length = 50 := by
  simp [series6, flatSeries_length]

theorem week6 : weekBars series6 49 53 = [flatBar 49] := by
  unfold series6
  rw [weekBars_append, weekBars_eq_nil (by
    intro b hb
    obtain ⟨-, hb1, hb2⟩ := flatSeries_mem hb
    push_cast at hb2
    left
    omega)]
  rfl

theorem baseline6 : baselineBars series6 49 = series6 := by
  apply baselineBars_eq_self
  intro b hb
  rcases List.mem_append.mp hb with h | h
  · obtain ⟨-, hb1, hb2⟩ := flatSeries_mem h
    push_cast at hb2
    omega
  · rcases List.mem_singleton.mp h with rfl
    constructor <;> simp [flatBar]

theorem short6 : ∀ b ∈ weekBars series6 49 53,
    (baselineBars series6 b.date).length < 200 := by
  rw [week6]
  intro b hb
  rcases List.mem_singleton.mp hb with rfl
  show (baselineBars series6 (49 : ℤ)).length < 200
  rw [baseline6, series6_length]
  norm_num

/-- Witness for C6: 50 days of history, the last day a literal maximum of its
own window — no event, no error, the symbol counted as a success. -/
theorem c6_witness :
    fetch6 "Y.NS" (49 - 400) (53 + 1) = Except.ok series6 ∧
    series6.length ≠ 0 ∧
    (∀ b ∈ weekBars series6 49 53,
      (baselineBars series6 b.date).length < 200) ∧
    ((∀ (c : ℚ) (d : Int) (tol : ℚ), (baselineBars series6 d).length < 200 →
       is52WeekHigh series6 c d tol = (false, none, none)) ∧
     firstWeekHigh series6 "Y.NS" (weekBars series6 49 53) = none ∧
     processSymbol fetch6 49 53
        { results := [], successCount := 0, errorCount := 0 } "Y.NS"
       = { results := [], successCount := 1, errorCount := 0 }) :=
  ⟨rfl, by rw [series6_length]; norm_num, short6,
    c6_insufficient_history fetch6 series6 "Y.NS" 49 53
      { results := [], successCount := 0, errorCount := 0 } rfl
      (by rw [series6_length]; norm_num) short6⟩

/-- One row of the near-high result (lines 263–270).  Field names follow the
result-dict keys. -/
structure NearHighRecord where
  stock : String
  currentPrice : ℚ
  week52High : ℚ
  week52Low : ℚ
  distanceFromHighPct : ℚ
  performance52wPct : ℚ
deriving DecidableEq

/-- `hist_data['Close'].iloc[-1]` — the last row's close (the list is
nonempty whenever used: the caller checks `len == 0` first). -/
def lastClose : List Bar → ℚ
  | [] => 0
  | [b] => b.close
  | _ :: bs => lastClose bs

/-- `hist_data['Low'].min()` — the minimum of the `Low` column (same empty
convention as `maxHigh`). -/
def minLow : List Bar → ℚ
  | [] => 0
  | [b] => b.low
  | b :: bs => min b.low (minLow bs)

/-- The body of the per-ticker loop of `get_near_52w_high_stocks`
(lines 248–273): on a fetch error (`except`) or empty data (`continue`) the
accumulator is unchanged; otherwise the symbol is appended iff
`distance_percent ≤ threshold_percent`. -/
def processNearSymbol (fetchYear : String → Except String (List Bar))
    (thresholdPercent : ℚ) (nearHighStocks : List NearHighRecord)
    (ticker : String) : List NearHighRecord :=
  match fetchYear ticker with
  | Except.error _ => nearHighStocks
  | Except.ok histData =>
    if histData.length = 0 then nearHighStocks
    else
      let currentPrice := lastClose histData
      let week52High := maxHigh histData
      let week52Low := minLow histData
      let distancePercent := (week52High - currentPrice) / week52High * 100
      if distancePercent ≤ thresholdPercent then
        nearHighStocks ++ [{
          stock := ticker.replace ".NS" "",
          currentPrice := round2 currentPrice,
          week52High := round2 week52High,
          week52Low := round2 week52Low,
          distanceFromHighPct := round2 distancePercent,
          performance52wPct :=
            round2 ((currentPrice - week52Low) / week52Low * 100) }]
      else nearHighStocks

/-- `get_near_52w_high_stocks(threshold_percent)` (lines 236–275).  Note line
247: the loop runs over `self.nifty100_with_ns[:20]` — only the FIRST 20
tickers of the universe ("Limit for demo"), not the whole universe. -/
def getNear52wHighStocks (fetchYear : String → Except String (List Bar))
    (thresholdPercent : ℚ) : List NearHighRecord :=
  (nifty100WithNS.take 20).foldl
    (processNearSymbol fetchYear thresholdPercent) []

/-- The per-symbol outcome of the near-high loop, as an `Option`: `some r`
iff the loop appends the record `r` for this ticker. -/
def nearRecordOf (fetchYear : String → Except String (List Bar))
    (thresholdPercent : ℚ) (ticker : String) : Option NearHighRecord :=
  match fetchYear ticker with
  | Except.error _ => none
  | Except.ok histData =>
    if histData.length = 0 then none
    else
      let currentPrice := lastClose histData
      let week52High := maxHigh histData
      let week52Low := minLow histData
      let distancePercent := (week52High - currentPrice) / week52High * 100
      if distancePercent ≤ thresholdPercent then
        some {
          stock := ticker.replace ".NS" "",
          currentPrice := round2 currentPrice,
          week52High := round2 week52High,
          week52Low := round2 week52Low,
          distanceFromHighPct := round2 distancePercent,
          performance52wPct :=
            round2 ((currentPrice - week52Low) / week52Low * 100) }
      else none

theorem processNearSymbol_eq (fetchYear : String → Except String (List Bar))
    (th : ℚ) (acc : List NearHighRecord) (t : String) :
    processNearSymbol fetchYear th acc t =
      match nearRecordOf fetchYear th t with
      | some r => acc ++ [r]
      | none => acc := by
  unfold processNearSymbol nearRecordOf
  rcases fetchYear t with msg | histData
  · rfl
  · dsimp only
    by_cases h0 : histData.length = 0
    · rw [if_pos h0, if_pos h0]
    · rw [if_neg h0, if_neg h0]
      by_cases hd : (maxHigh histData - lastClose histData) / maxHigh histData
          * 100 ≤ th
      · rw [if_pos hd, if_pos hd]
      · rw [if_neg hd, if_neg hd]

theorem foldl_near_filterMap (fetchYear : String → Except String (List Bar))
    (th : ℚ) :
    ∀ (l : List String) (acc : List NearHighRecord),
      l.foldl (processNearSymbol fetchYear th) acc
        = acc ++ l.filterMap (nearRecordOf fetchYear th)
  | [], acc => by simp
  | t :: rest, acc => by
    rw [List.foldl_cons, foldl_near_filterMap fetchYear th rest,
      processNearSymbol_eq, List.filterMap_cons]
    rcases nearRecordOf fetchYear th t with _ | r
    · rfl
    · simp

theorem getNear_eq_filterMap (fetchYear : String → Except String (List Bar))
    (th : ℚ) :
    getNear52wHighStocks fetchYear th
      = (nifty100WithNS.take 20).filterMap (nearRecordOf fetchYear th) := by
  unfold getNear52wHighStocks
  rw [foldl_near_filterMap fetchYear th (nifty100WithNS.take 20) []]
  rfl

theorem round2_5 : round2 5 = 5 := by
  have h := round2_int 5
  norm_num at h
  exact h

theorem round2_50 : round2 50 = 50 := by
  have h := round2_int 50
  norm_num at h
  exact h

theorem round2_90 : round2 90 = 90 := by
  have h := round2_int 90
  norm_num at h
  exact h

theorem round2_95 : round2 95 = 95 := by
  have h := round2_int 95
  norm_num at h
  exact h

/-- One trading year of data for the near-high boundary scenario: last close
95, 52-week high 100, 52-week low 50. -/
def boundaryBar : Bar :=
  { date := 0, open_ := 95, high := 100, low := 50, close := 95, volume := 1 }

/-- A data source returning the boundary series for every ticker. -/
def bFetch : String → Except String (List Bar) :=
  fun _ => Except.ok [boundaryBar]

/-- The record the near-high loop appends for the boundary scenario:
distance_percent is exactly 5. -/
def bRec : NearHighRecord :=
  { stock := "T".replace ".NS" "", currentPrice := 95, week52High := 100,
    week52Low := 50, distanceFromHighPct := 5, performance52wPct := 90 }

theorem nearRecordOf_boundary_at5 : nearRecordOf bFetch 5 "T" = some bRec := by
  unfold nearRecordOf bFetch
  dsimp only
  rw [if_neg (by norm_num : ¬ ([boundaryBar] : List Bar).length = 0),
    show lastClose [boundaryBar] = 95 from rfl,
    show maxHigh [boundaryBar] = 100 from rfl,
    show minLow [boundaryBar] = 50 from rfl,
    show ((100 : ℚ) - 95) / 100 * 100 = 5 by norm_num,
    if_pos (le_refl (5 : ℚ)),
    show ((95 : ℚ) - 50) / 50 * 100 = 90 by norm_num]
  unfold bRec
  simp [NearHighRecord.mk.injEq, round2_95, round2_100, round2_50, round2_5,
    round2_90]

theorem nearRecordOf_boundary_at49 : nearRecordOf bFetch (49 / 10) "T" = none := by
  unfold nearRecordOf bFetch
  dsimp only
  rw [if_neg (by norm_num : ¬ ([boundaryBar] : List Bar).length = 0)]
  have hdist : (maxHigh [boundaryBar] - lastClose [boundaryBar])
      / maxHigh [boundaryBar] * 100 = 5 := by
    show ((100 : ℚ) - 95) / 100 * 100 = 5
    norm_num
  rw [hdist, if_neg (by norm_num : ¬ (5 : ℚ) ≤ 49 / 10)]

/-- A year's data for BRITANNIA — flat at its 52-week high, distance 0. -/
def britBar : Bar :=
  { date := 0, open_ := 100, high := 100, low := 100, close := 100,
    volume := 1 }

/-- A data source that has data only for BRITANNIA.NS — the 21st ticker of
the universe, just past the demo limit. -/
def fetchBrit : String → Except String (List Bar) :=
  fun t => if t = "BRITANNIA.NS" then Except.ok [britBar]
    else Except.error "no data"

/-- C8 fails on the code: BRITANNIA.NS is in the universe and its data sits
exactly at its 52-week high (distance 0 ≤ 5), yet the near-high scan returns
nothing for it — line 247 iterates only `nifty100_with_ns[:20]` ("Limit for
demo"), and BRITANNIA.NS is the 21st ticker. -/
theorem c8_counterexample :
    "BRITANNIA.NS" ∈ nifty100WithNS ∧
    fetchBrit "BRITANNIA.NS" = Except.ok [britBar] ∧
    ¬ ([britBar] : List Bar).length = 0 ∧
    (maxHigh [britBar] - lastClose [britBar]) / maxHigh [britBar] * 100
      ≤ (5 : ℚ) ∧
    getNear52wHighStocks fetchBrit 5 = [] := by
  refine ⟨by decide, rfl, by norm_num, ?_, ?_⟩
  · show ((100 : ℚ) - 100) / 100 * 100 ≤ 5
    norm_num
  · rw [getNear_eq_filterMap]
    apply List.filterMap_eq_nil_iff.mpr
    have hall : ∀ t ∈ nifty100WithNS.take 20, ¬ t = "BRITANNIA.NS" := by
      decide
    intro t ht
    unfold nearRecordOf fetchBrit
    rw [if_neg (hall t ht)]

/-- C8 amended: the near-high mode evaluates only the first 20 symbols of the
universe (the hardcoded `[:20]` demo limit of line 247); among those, a
symbol with successfully fetched, nonempty data is included iff
`distance_percent = (week_52_high - current_price) / week_52_high * 100` is
at most the threshold, boundary included: current price 95 against high 100
is included at threshold 5 and excluded at threshold 4.9. -/
theorem c8_take20_rule :
    (∀ (fetchYear : String → Except String (List Bar)) (th : ℚ),
      getNear52wHighStocks fetchYear th
        = (nifty100WithNS.take 20).filterMap (nearRecordOf fetchYear th)) ∧
    (∀ (fetchYear : String → Except String (List Bar)) (th : ℚ)
        (r : NearHighRecord),
      r ∈ getNear52wHighStocks fetchYear th ↔
        ∃ t ∈ nifty100WithNS.take 20, nearRecordOf fetchYear th t = some r) ∧
    nearRecordOf bFetch 5 "T" = some bRec ∧
    nearRecordOf bFetch (49 / 10) "T" = none := by
  refine ⟨getNear_eq_filterMap, ?_, nearRecordOf_boundary_at5,
    nearRecordOf_boundary_at49⟩
  intro fetchYear th r
  rw [getNear_eq_filterMap, List.mem_filterMap]
